import Mathlib

/-!
Shallow embedding of src/number_guessing_game.py: the highscore store
(load_highscores, save_highscores, update_highscore), the round engine
(play_round), and the menu glue deciding whether a finished round is passed
to the highscore update. Python dicts become association lists, Python ints
become Int, the guess script becomes an explicit list, and the backing file
and the possible write failures become explicit state threaded through the
I/O functions.
-/

namespace NumberGuessing

/-- A Python dict keyed by strings, as an association list; the first binding
of a key is its value. -/
abbrev Dict (α : Type) := List (String × α)

/-- Python d.get(k): the value bound to k, if any. -/
def dictGet {α : Type} : Dict α → String → Option α
  | [], _ => none
  | (k₀, v₀) :: rest, k => if k₀ = k then some v₀ else dictGet rest k

/-- Python d[k] = v: replace the binding of k in place, or append a new one. -/
def dictSet {α : Type} : Dict α → String → α → Dict α
  | [], k, v => [(k, v)]
  | (k₀, v₀) :: rest, k, v =>
    if k₀ = k then (k, v) :: rest else (k₀, v₀) :: dictSet rest k v

/-- A JSON value as produced by json.load. -/
inductive JVal where
  | jnull
  | jbool (b : Bool)
  | jint (n : Int)
  | jfloat
  | jstr (s : String)
  | jarr (elems : List JVal)
  | jobj (fields : List (String × JVal))

/-- The guess_highscore.json backing file as load_highscores sees it: missing,
present but unreadable or not parseable as JSON (OSError or JSONDecodeError),
or holding a JSON value. -/
inductive PFile where
  | missing
  | badJson
  | json (v : JVal)

/-- One entry of the DIFFICULTIES table (lines 21 to 25). -/
structure DiffMeta where
  name : String
  max_attempts : Option Int
deriving DecidableEq

/-- DIFFICULTIES (lines 21 to 25). -/
def DIFFICULTIES : Dict DiffMeta :=
  [("E", ⟨"Easy", none⟩), ("N", ⟨"Normal", some 10⟩), ("H", ⟨"Hard", some 7⟩)]

/-- The default all-absent table built on line 100 of load_highscores. -/
def initialScores : Dict (Option Int) :=
  DIFFICULTIES.map (fun p => (p.2.name, (none : Option Int)))

/-- Python isinstance(v, int); true on bool values as well, since bool is an
int subclass in Python. -/
def isinstance_int : JVal → Bool
  | JVal.jint _ => true
  | JVal.jbool _ => true
  | _ => false

/-- The numeric value Python stores for a JSON value passing the isinstance
int check (True counts as 1 and False as 0). -/
def pyIntOf : JVal → Int
  | JVal.jint n => n
  | JVal.jbool b => if b then 1 else 0
  | _ => 0

/-- load_highscores (lines 94 to 113). A missing file returns the defaults; a
file raising json.JSONDecodeError or OSError is caught by the except clause
and also leaves the defaults; a JSON object is scanned per difficulty name
with an isinstance int check on data.get(diff_name). Any other JSON value
makes data.get raise AttributeError, which the except clause does not catch,
so the call raises instead of returning (modelled as none). -/
def load_highscores : PFile → Option (Dict (Option Int))
  | PFile.missing => some initialScores
  | PFile.badJson => some initialScores
  | PFile.json (JVal.jobj data) =>
      some ((initialScores.map Prod.fst).foldl
        (fun sc diff_name =>
          match dictGet data diff_name with
          | some v =>
              if isinstance_int v then dictSet sc diff_name (some (pyIntOf v))
              else sc
          | none => sc)
        initialScores)
  | PFile.json _ => none

/-- The text of one table entry as written by json.dump with indent 2. -/
def jsonOfEntry : Option Int → String
  | none => "null"
  | some n => toString n

/-- The full file text that json.dump(scores, f, indent=2) writes for a
table on line 120. -/
def serialize (t : Dict (Option Int)) : String :=
  "\x7b\n" ++
    String.intercalate ",\n"
      (t.map (fun p => "  \"" ++ p.1 ++ "\": " ++ jsonOfEntry p.2)) ++
  "\n\x7d"

/-- How the attempted file write turns out: open and dump both succeed; open
raises OSError and the file is untouched; or open succeeds (truncating the
file) and dump raises OSError after k characters have been written. -/
inductive WriteOutcome where
  | ok
  | openFail
  | dumpFail (k : Nat)
deriving DecidableEq

/-- save_highscores (lines 116 to 123), with the write outcome and the prior
file content made explicit. The Python function body has no return statement
and swallows OSError, so its value is always None (the first component). The
second component is the file content afterwards. -/
def save_highscores (scores : Dict (Option Int)) (w : WriteOutcome)
    (prior : Option String) : Option Bool × Option String :=
  match w with
  | WriteOutcome.ok => (none, some (serialize scores))
  | WriteOutcome.openFail => (none, prior)
  | WriteOutcome.dumpFail k => (none, some ((serialize scores).take k))

/-- Python scores.get(difficulty_name) on a table whose stored values are
Optional ints: a missing key and a key bound to None both come back None. -/
def dictGetJ (t : Dict (Option Int)) (k : String) : Option Int :=
  (dictGet t k).join

/-- update_highscore (lines 126 to 138). Returns the table afterwards, the
bool the Python function returns, and the file content afterwards (the save
call happens only on the record branch). -/
def update_highscore (scores : Dict (Option Int)) (difficulty_name : String)
    (attempts : Int) (w : WriteOutcome) (prior : Option String) :
    Dict (Option Int) × Bool × Option String :=
  match dictGetJ scores difficulty_name with
  | none =>
      (dictSet scores difficulty_name (some attempts), true,
        (save_highscores (dictSet scores difficulty_name (some attempts)) w prior).2)
  | some best =>
      if attempts < best then
        (dictSet scores difficulty_name (some attempts), true,
          (save_highscores (dictSet scores difficulty_name (some attempts)) w prior).2)
      else (scores, false, prior)

/-- A sequence of update_highscore calls for one fixed difficulty, tracking
the table through the calls. -/
def apply_updates (t : Dict (Option Int)) (difficulty_name : String) :
    List Int → Dict (Option Int)
  | [] => t
  | a :: rest =>
      apply_updates (update_highscore t difficulty_name a WriteOutcome.ok none).1
        difficulty_name rest

/-- Minimum of a list of ints, none when the list is empty. -/
def listMin : List Int → Option Int
  | [] => none
  | a :: rest => some (rest.foldl min a)

/-- Outcome of the play_round loop on a scripted list of guesses: the return
at line 180 (won), the return at line 172 (forfeited), or the script running
out while input_int would still be prompting (blocked). Each constructor
carries the attempts counter at that moment. -/
inductive Outcome where
  | won (attempts : Nat)
  | forfeited (attempts : Nat)
  | blocked (attempts : Nat)
deriving DecidableEq

/-- The guard on lines 166 to 168: remaining = max_attempts - attempts is
computed and the round ends when remaining is not positive. -/
def outOfAttempts (maxAtt : Option Int) (attempts : Nat) : Bool :=
  match maxAtt with
  | some b => decide (b - (attempts : Int) ≤ 0)
  | none => false

/-- The loop of play_round (lines 164 to 193) run on a scripted guess list,
starting from a given attempts counter. -/
def round_outcome (maxAtt : Option Int) (secret : Nat) :
    List Nat → Nat → Outcome
  | [], attempts =>
    if outOfAttempts maxAtt attempts then Outcome.forfeited attempts
    else Outcome.blocked attempts
  | g :: rest, attempts =>
    if outOfAttempts maxAtt attempts then Outcome.forfeited attempts
    else if g = secret then Outcome.won (attempts + 1)
    else round_outcome maxAtt secret rest (attempts + 1)

/-- The sentinel 10**9 returned on exhaustion at line 172. -/
def FORFEIT_SENTINEL : Nat := 1000000000

/-- The int that play_round returns for each loop outcome; a blocked round
never returns. -/
def outcomeRet : Outcome → Option Nat
  | Outcome.won a => some a
  | Outcome.forfeited _ => some FORFEIT_SENTINEL
  | Outcome.blocked _ => none

/-- play_round (lines 156 to 194) as the int it returns on a scripted guess
list. -/
def play_round (maxAtt : Option Int) (secret : Nat) (gs : List Nat) :
    Option Nat :=
  outcomeRet (round_outcome maxAtt secret gs 0)

/-- The guard attempts < 10**9 on line 243 deciding whether menu_loop passes
the round result to update_highscore. -/
def menu_invokes_update (ret : Nat) : Bool := decide (ret < FORFEIT_SENTINEL)

/-- diff = abs(secret - guess) computed on line 187. -/
def guessDiff (secret guess : Nat) : Nat :=
  ((secret : Int) - (guess : Int)).natAbs

/-- The directional feedback printed on lines 181 to 184 for a wrong guess. -/
def direction (secret guess : Nat) : String :=
  if guess < secret then "Too Low." else "Too High."

/-- The proximity feedback printed on lines 187 to 193 for a wrong guess. -/
def proximity (secret guess : Nat) : String :=
  if guessDiff secret guess ≤ 5 then " Very close!"
  else if guessDiff secret guess ≤ 10 then " Getting warm."
  else "  Cold."

/-! Helper lemmas about the dict model. -/

lemma dictGet_dictSet_self {α : Type} (t : Dict α) (k : String) (v : α) :
    dictGet (dictSet t k v) k = some v := by
  induction t with
  | nil => simp [dictSet, dictGet]
  | cons p rest ih =>
    obtain ⟨k₀, v₀⟩ := p
    by_cases h : k₀ = k
    · simp [dictSet, dictGet, h]
    · simp [dictSet, dictGet, h, ih]

lemma dictGet_dictSet_ne {α : Type} (t : Dict α) (k k' : String) (v : α)
    (h : k' ≠ k) : dictGet (dictSet t k v) k' = dictGet t k' := by
  induction t with
  | nil => simp [dictSet, dictGet, Ne.symm h]
  | cons p rest ih =>
    obtain ⟨k₀, v₀⟩ := p
    by_cases hk : k₀ = k
    · subst hk
      simp [dictSet, dictGet, Ne.symm h]
    · by_cases hk' : k₀ = k'
      · simp [dictSet, dictGet, hk, hk', h]
      · simp [dictSet, dictGet, hk, hk', ih]

lemma dictGetJ_dictSet (t : Dict (Option Int)) (k : String) (a : Int) :
    dictGetJ (dictSet t k (some a)) k = some a := by
  simp [dictGetJ, dictGet_dictSet_self, Option.join]

/-! Helper lemmas about update_highscore. -/

lemma getJ_update_self (t : Dict (Option Int)) (name : String) (a : Int)
    (w : WriteOutcome) (prior : Option String) :
    dictGetJ (update_highscore t name a w prior).1 name
      = some ((dictGetJ t name).elim a (min a)) := by
  cases hg : dictGetJ t name with
  | none =>
    simp only [update_highscore, hg, Option.elim_none]
    exact dictGetJ_dictSet t name a
  | some best =>
    by_cases hab : a < best
    · simp only [update_highscore, hg, if_pos hab, Option.elim_some]
      rw [dictGetJ_dictSet t name a, min_eq_left hab.le]
    · simp only [update_highscore, hg, if_neg hab, Option.elim_some]
      rw [min_eq_right (not_lt.mp hab)]

lemma apply_updates_getJ_some (name : String) :
    ∀ (l : List Int) (t : Dict (Option Int)) (best : Int),
      dictGetJ t name = some best →
      dictGetJ (apply_updates t name l) name = some (l.foldl min best) := by
  intro l
  induction l with
  | nil => intro t best h; simpa [apply_updates] using h
  | cons a rest ih =>
    intro t best h
    have hstep : dictGetJ (update_highscore t name a WriteOutcome.ok none).1 name
        = some (min a best) := by
      rw [getJ_update_self, h]
      rfl
    simp only [apply_updates]
    rw [ih _ _ hstep, List.foldl_cons, min_comm a best]

/-! Helper lemmas about the round loop. -/

lemma outOfAttempts_some_false {b : Int} {attempts : Nat}
    (h : (attempts : Int) < b) : outOfAttempts (some b) attempts = false := by
  simp only [outOfAttempts, decide_eq_false_iff_not]
  omega

lemma outOfAttempts_some_true {b : Int} {attempts : Nat}
    (h : b ≤ (attempts : Int)) : outOfAttempts (some b) attempts = true := by
  simp only [outOfAttempts, decide_eq_true_eq]
  omega

lemma round_outcome_all_wrong (b : Int) (secret : Nat) :
    ∀ (gs : List Nat) (attempts : Nat),
      (∀ g ∈ gs, g ≠ secret) → (attempts : Int) ≤ b →
      (((attempts : Int) + gs.length < b →
          round_outcome (some b) secret gs attempts
            = Outcome.blocked (attempts + gs.length))
        ∧ (b ≤ (attempts : Int) + gs.length →
          round_outcome (some b) secret gs attempts
            = Outcome.forfeited b.toNat)) := by
  intro gs
  induction gs with
  | nil =>
    intro attempts _ hle
    constructor
    · intro hlt
      have hfa : outOfAttempts (some b) attempts = false :=
        outOfAttempts_some_false (by simpa using hlt)
      simp [round_outcome, hfa]
    · intro hge
      have heq : (attempts : Int) = b := le_antisymm hle (by simpa using hge)
      have htr : outOfAttempts (some b) attempts = true :=
        outOfAttempts_some_true (by omega)
      simp only [round_outcome, htr, if_true]
      congr 1
      omega
  | cons g rest ih =>
    intro attempts hw hle
    have hg : g ≠ secret := hw g (List.mem_cons_self g rest)
    have hrest : ∀ x ∈ rest, x ≠ secret := fun x hx => hw x (List.mem_cons_of_mem g hx)
    by_cases hout : b ≤ (attempts : Int)
    · have htr := outOfAttempts_some_true hout
      have heq : (attempts : Int) = b := le_antisymm hle hout
      constructor
      · intro hlt
        exfalso
        simp only [List.length_cons] at hlt
        omega
      · intro _
        simp only [round_outcome, htr, if_true]
        congr 1
        omega
    · push_neg at hout
      have hfa := outOfAttempts_some_false hout
      have hle1 : ((attempts + 1 : Nat) : Int) ≤ b := by push_cast; omega
      obtain ⟨ih1, ih2⟩ := ih (attempts + 1) hrest hle1
      have hstep : round_outcome (some b) secret (g :: rest) attempts
          = round_outcome (some b) secret rest (attempts + 1) := by
        simp [round_outcome, hfa, hg]
      constructor
      · intro hlt
        have hlt' : ((attempts + 1 : Nat) : Int) + rest.length < b := by
          simp only [List.length_cons] at hlt
          push_cast at hlt ⊢
          omega
        rw [hstep, ih1 hlt']
        simp only [List.length_cons]
        congr 1
        omega
      · intro hge
        have hge' : b ≤ ((attempts + 1 : Nat) : Int) + rest.length := by
          simp only [List.length_cons] at hge
          push_cast at hge ⊢
          omega
        rw [hstep]
        exact ih2 hge'

lemma round_outcome_won_le (b : Int) (secret : Nat) :
    ∀ (gs : List Nat) (attempts a : Nat),
      round_outcome (some b) secret gs attempts = Outcome.won a →
      (a : Int) ≤ b := by
  intro gs
  induction gs with
  | nil =>
    intro attempts a h
    simp only [round_outcome] at h
    split at h <;> simp at h
  | cons g rest ih =>
    intro attempts a h
    simp only [round_outcome] at h
    split at h
    · simp at h
    · rename_i hout
      have hlt : (attempts : Int) < b := by
        by_contra hc
        push_neg at hc
        exact hout (outOfAttempts_some_true hc)
      split at h
      · simp only [Outcome.won.injEq] at h
        omega
      · exact ih (attempts + 1) a h

lemma round_outcome_replicate_won (secret g : Nat) (hg : g ≠ secret) :
    ∀ (n attempts : Nat),
      round_outcome none secret (List.replicate n g ++ [secret]) attempts
        = Outcome.won (attempts + n + 1) := by
  intro n
  induction n with
  | zero =>
    intro attempts
    simp [round_outcome, outOfAttempts]
  | succ n ih =>
    intro attempts
    rw [List.replicate_succ, List.cons_append]
    have hstep :
        round_outcome none secret (g :: (List.replicate n g ++ [secret])) attempts
          = round_outcome none secret (List.replicate n g ++ [secret]) (attempts + 1) := by
      simp [round_outcome, outOfAttempts, hg]
    rw [hstep, ih (attempts + 1)]
    congr 1
    omega

/-! Claim theorems. -/

/-- C1: for every difficulty with a finite budget B and every sequence of
in-range guesses none of which equals the secret, the round accepts exactly B
guesses, incrementing the attempts counter once per accepted guess (with
fewer than B scripted wrong guesses the loop is still waiting for input with
counter equal to the number of accepted guesses and no exhaustion signal),
and signals exhaustion exactly when a further guess beyond the B-th would be
read, with the counter still at B on the exhaustion signal. -/
theorem C1_budget_exhaustion :
    ∀ (key : String) (m : DiffMeta), (key, m) ∈ DIFFICULTIES →
    ∀ (B : Int), m.max_attempts = some B →
    ∀ (secret : Nat) (gs : List Nat),
      (∀ g ∈ gs, 1 ≤ g ∧ g ≤ 100 ∧ g ≠ secret) →
      (((gs.length : Int) < B →
          round_outcome m.max_attempts secret gs 0 = Outcome.blocked gs.length)
        ∧ (B ≤ (gs.length : Int) →
          round_outcome m.max_attempts secret gs 0 = Outcome.forfeited B.toNat)) := by
  intro key m hmem B hB secret gs hgs
  have hBpos : (0 : Int) ≤ B := by
    simp only [DIFFICULTIES, List.mem_cons, List.not_mem_nil, or_false,
      Prod.mk.injEq] at hmem
    rcases hmem with ⟨hk, hm⟩ | ⟨hk, hm⟩ | ⟨hk, hm⟩ <;> subst hm <;>
      simp only [DiffMeta.mk.injEq] at hB <;> simp_all <;> omega
  have hwrong : ∀ g ∈ gs, g ≠ secret := fun g hg => (hgs g hg).2.2
  rw [hB]
  have h := round_outcome_all_wrong B secret gs 0 hwrong (by exact_mod_cast hBpos)
  constructor
  · intro hlt
    have := h.1 (by push_cast; omega)
    simpa using this
  · intro hge
    exact h.2 (by push_cast; omega)

/-- C1 witness: on Hard (budget 7), seven scripted wrong in-range guesses end
in the exhaustion signal with the counter at 7. -/
theorem C1_budget_exhaustion_witness :
    round_outcome (some 7) 50 [1, 2, 3, 4, 5, 6, 8] 0 = Outcome.forfeited 7 := by
  have h := C1_budget_exhaustion "H" ⟨"Hard", some 7⟩ (by decide) 7 rfl 50
    [1, 2, 3, 4, 5, 6, 8] (by decide)
  exact h.2 (by decide)

/-- C2: starting from a table with no entry for the fixed difficulty, after
any sequence of updates the stored best equals the minimum of all attempts
values ever passed (absent if none were passed); and each individual update
returns true exactly when no entry exists or the new value is strictly
smaller, setting the entry to the new value in that case and leaving the
table unchanged returning false otherwise. -/
theorem C2_update_monotone_min (name : String) :
    (∀ (t : Dict (Option Int)) (l : List Int),
        dictGetJ t name = none →
        dictGetJ (apply_updates t name l) name = listMin l)
    ∧ (∀ (t : Dict (Option Int)) (a : Int) (w : WriteOutcome) (prior : Option String),
        ((update_highscore t name a w prior).2.1 = true ↔
          dictGetJ t name = none ∨ ∃ best, dictGetJ t name = some best ∧ a < best)
        ∧ ((update_highscore t name a w prior).2.1 = true →
            dictGetJ (update_highscore t name a w prior).1 name = some a)
        ∧ ((update_highscore t name a w prior).2.1 = false →
            (update_highscore t name a w prior).1 = t)) := by
  constructor
  · intro t l h
    cases l with
    | nil => simpa [apply_updates, listMin] using h
    | cons a rest =>
      have hstep : dictGetJ (update_highscore t name a WriteOutcome.ok none).1 name
          = some a := by
        rw [getJ_update_self, h]
        rfl
      simp only [apply_updates]
      rw [apply_updates_getJ_some name rest _ a hstep]
      rfl
  · intro t a w prior
    cases hg : dictGetJ t name with
    | none =>
      refine ⟨?_, ?_, ?_⟩
      · simp [update_highscore, hg]
      · intro _
        simp only [update_highscore, hg]
        exact dictGetJ_dictSet t name a
      · intro hfalse
        simp [update_highscore, hg] at hfalse
    | some best =>
      by_cases hab : a < best
      · refine ⟨?_, ?_, ?_⟩
        · simp [update_highscore, hg, hab]
        · intro _
          simp only [update_highscore, hg, if_pos hab]
          exact dictGetJ_dictSet t name a
        · intro hfalse
          simp [update_highscore, hg, hab] at hfalse
      · refine ⟨?_, ?_, ?_⟩
        · simp [update_highscore, hg, hab]
        · intro htrue
          simp [update_highscore, hg, hab] at htrue
        · intro _
          simp [update_highscore, hg, hab]

/-- C2 witness: from the default table, updates 5, 3, 4 on Easy leave the
stored best at 3, the minimum of the values passed. -/
theorem C2_update_monotone_min_witness :
    dictGetJ (apply_updates initialScores "Easy" [5, 3, 4]) "Easy" = some 3 := by
  have h := (C2_update_monotone_min "Easy").1 initialScores [5, 3, 4] (by decide)
  rw [h]
  decide

/-- C3: the per-entry tolerance the claim describes does hold on a JSON
object file (the Easy entry bound to a non-number is skipped while Normal
loads), and a missing file yields all entries absent; but on a file holding
valid JSON that is not an object, data.get raises AttributeError, which the
except clause (json.JSONDecodeError, OSError) does not catch, so
load_highscores raises instead of returning a table. -/
theorem C3_load_partial_tolerance_and_crash :
    load_highscores (PFile.json (JVal.jobj
        [("Easy", JVal.jstr "not-a-number"), ("Normal", JVal.jint 4)]))
      = some [("Easy", none), ("Normal", some 4), ("Hard", none)]
    ∧ load_highscores PFile.missing
      = some [("Easy", none), ("Normal", none), ("Hard", none)]
    ∧ load_highscores (PFile.json (JVal.jarr []))
      = none :=
  ⟨rfl, rfl, rfl⟩

/-- C4 counterexample: a backing file binding Easy to the negative integer -5
is loaded verbatim as the Easy record, not treated as absent. -/
theorem C4_counterexample :
    load_highscores (PFile.json (JVal.jobj [("Easy", JVal.jint (-5))]))
      = some [("Easy", some (-5)), ("Normal", none), ("Hard", none)]
    ∧ load_highscores (PFile.json (JVal.jobj [("Easy", JVal.jint (-5))]))
      ≠ some [("Easy", none), ("Normal", none), ("Hard", none)] :=
  ⟨rfl, by decide⟩

/-- C4 amended: load keeps any integer value for a known difficulty,
including zero and negative integers, as the stored record; the isinstance
int check does not exclude non-positive values. -/
theorem C4_load_accepts_nonpositive :
    ∀ (n : Int), n ≤ 0 →
      load_highscores (PFile.json (JVal.jobj [("Easy", JVal.jint n)]))
        = some [("Easy", some n), ("Normal", none), ("Hard", none)] := by
  intro n _
  rfl

/-- C4 amended witness: the zero value is loaded as the Easy record. -/
theorem C4_load_accepts_nonpositive_witness :
    load_highscores (PFile.json (JVal.jobj [("Easy", JVal.jint 0)]))
      = some [("Easy", some 0), ("Normal", none), ("Hard", none)] :=
  C4_load_accepts_nonpositive 0 (by decide)

/-- C5 counterexample: an unbudgeted round that wins after 10**9 wrong
guesses ends won with 10**9 + 1 attempts, a finite win count that is not
below the forfeited sentinel, and the menu guard then skips the highscore
update even though the round was won. -/
theorem C5_counterexample :
    round_outcome none 50 (List.replicate 1000000000 1 ++ [50]) 0
        = Outcome.won 1000000001
    ∧ ¬ (1000000001 < FORFEIT_SENTINEL)
    ∧ menu_invokes_update 1000000001 = false := by
  refine ⟨?_, by decide, by decide⟩
  have h := round_outcome_replicate_won 50 1 (by decide) 1000000000 0
  have e : (0 + 1000000000 + 1 : Nat) = 1000000001 := by norm_num
  rw [e] at h
  exact h

/-- C5 amended: on exhaustion the returned sentinel 10**9 is never passed to
the highscore update; a win under a finite budget b takes at most b attempts,
so whenever b is below the sentinel the menu passes every budgeted win to the
update; and for unbudgeted rounds the menu passes a win to the update exactly
when its attempt count is below the sentinel. -/
theorem C5_forfeit_never_recorded (b : Int) (secret : Nat) (gs : List Nat) :
    (∀ t, round_outcome (some b) secret gs 0 = Outcome.forfeited t →
        play_round (some b) secret gs = some FORFEIT_SENTINEL
          ∧ menu_invokes_update FORFEIT_SENTINEL = false)
    ∧ (∀ a, round_outcome (some b) secret gs 0 = Outcome.won a →
        (a : Int) ≤ b
          ∧ (b < (FORFEIT_SENTINEL : Int) → menu_invokes_update a = true))
    ∧ (∀ a, round_outcome none secret gs 0 = Outcome.won a →
        (menu_invokes_update a = true ↔ a < FORFEIT_SENTINEL)) := by
  refine ⟨?_, ?_, ?_⟩
  · intro t h
    constructor
    · simp [play_round, h, outcomeRet]
    · decide
  · intro a h
    refine ⟨round_outcome_won_le b secret gs 0 a h, ?_⟩
    intro hb
    simp only [menu_invokes_update, decide_eq_true_eq]
    have hle := round_outcome_won_le b secret gs 0 a h
    simp only [FORFEIT_SENTINEL] at hb ⊢
    omega
  · intro a _
    simp [menu_invokes_update]

/-- C5 amended witness: a Hard round won on the first guess is below the
sentinel and the menu passes it to the highscore update. -/
theorem C5_forfeit_never_recorded_witness :
    ((1 : Nat) : Int) ≤ 7 ∧ menu_invokes_update 1 = true := by
  have h := (C5_forfeit_never_recorded 7 50 [50]).2.1 1 (by decide)
  exact ⟨h.1, h.2 (by decide)⟩

/-- C6: for a wrong in-range guess the absolute difference d lies in [1, 99]
and the proximity feedback is a total, non-overlapping partition: very close
exactly when d is at most 5, getting warm exactly when d is between 6 and 10,
and cold exactly when d is at least 11. -/
theorem C6_proximity_partition (secret guess : Nat)
    (h1 : 1 ≤ secret) (h2 : secret ≤ 100) (h3 : 1 ≤ guess) (h4 : guess ≤ 100)
    (hne : guess ≠ secret) :
    (1 ≤ guessDiff secret guess ∧ guessDiff secret guess ≤ 99)
    ∧ (proximity secret guess = " Very close!" ↔ guessDiff secret guess ≤ 5)
    ∧ (proximity secret guess = " Getting warm." ↔
        6 ≤ guessDiff secret guess ∧ guessDiff secret guess ≤ 10)
    ∧ (proximity secret guess = "  Cold." ↔ 11 ≤ guessDiff secret guess)
    ∧ (proximity secret guess = " Very close!"
        ∨ proximity secret guess = " Getting warm."
        ∨ proximity secret guess = "  Cold.") := by
  have hb : 1 ≤ guessDiff secret guess ∧ guessDiff secret guess ≤ 99 := by
    unfold guessDiff
    omega
  have key : (proximity secret guess = " Very close!" ↔ guessDiff secret guess ≤ 5)
      ∧ (proximity secret guess = " Getting warm." ↔
          6 ≤ guessDiff secret guess ∧ guessDiff secret guess ≤ 10)
      ∧ (proximity secret guess = "  Cold." ↔ 11 ≤ guessDiff secret guess)
      ∧ (proximity secret guess = " Very close!"
          ∨ proximity secret guess = " Getting warm."
          ∨ proximity secret guess = "  Cold.") := by
    rcases le_or_lt (guessDiff secret guess) 5 with ha | ha
    · have hpx : proximity secret guess = " Very close!" := by
        simp [proximity, ha]
      refine ⟨?_, ?_, ?_, Or.inl hpx⟩
      · rw [hpx]
        simpa using ha
      · rw [hpx]
        constructor
        · intro h
          exact absurd h (by decide)
        · intro h
          exfalso
          omega
      · rw [hpx]
        constructor
        · intro h
          exact absurd h (by decide)
        · intro h
          exfalso
          omega
    · rcases le_or_lt (guessDiff secret guess) 10 with hc | hc
      · have ha' : ¬ guessDiff secret guess ≤ 5 := by omega
        have hpx : proximity secret guess = " Getting warm." := by
          simp [proximity, ha', hc]
        refine ⟨?_, ?_, ?_, Or.inr (Or.inl hpx)⟩
        · rw [hpx]
          constructor
          · intro h
            exact absurd h (by decide)
          · intro h
            exfalso
            omega
        · rw [hpx]
          simp only [true_iff]
          omega
        · rw [hpx]
          constructor
          · intro h
            exact absurd h (by decide)
          · intro h
            exfalso
            omega
      · have ha' : ¬ guessDiff secret guess ≤ 5 := by omega
        have hc' : ¬ guessDiff secret guess ≤ 10 := by omega
        have hpx : proximity secret guess = "  Cold." := by
          simp [proximity, ha', hc']
        refine ⟨?_, ?_, ?_, Or.inr (Or.inr hpx)⟩
        · rw [hpx]
          constructor
          · intro h
            exact absurd h (by decide)
          · intro h
            exfalso
            omega
        · rw [hpx]
          constructor
          · intro h
            exact absurd h (by decide)
          · intro h
            exfalso
            omega
        · rw [hpx]
          simp only [true_iff]
          omega
  exact ⟨hb, key.1, key.2.1, key.2.2.1, key.2.2.2⟩

/-- C6 witness: secret 50 and guess 43 give difference 7, classified as
getting warm. -/
theorem C6_proximity_partition_witness :
    proximity 50 43 = " Getting warm." := by
  have h := C6_proximity_partition 50 43 (by decide) (by decide) (by decide)
    (by decide) (by decide)
  exact h.2.2.1.mpr (by decide)

/-- C7: for every wrong guess the directional feedback is Too Low exactly
when the guess is below the secret and Too High exactly when it is above;
the two cases are exhaustive and mutually exclusive. -/
theorem C7_direction_dichotomy (secret guess : Nat) (hne : guess ≠ secret) :
    (direction secret guess = "Too Low." ↔ guess < secret)
    ∧ (direction secret guess = "Too High." ↔ secret < guess)
    ∧ (direction secret guess = "Too Low." ∨ direction secret guess = "Too High.")
    ∧ ¬ (direction secret guess = "Too Low."
          ∧ direction secret guess = "Too High.") := by
  by_cases h : guess < secret
  · have hd : direction secret guess = "Too Low." := by
      simp [direction, h]
    refine ⟨by rw [hd]; simpa using h, ?_, Or.inl hd, ?_⟩
    · rw [hd]
      constructor
      · intro hh
        exact absurd hh (by decide)
      · intro hh
        exfalso
        omega
    · rintro ⟨_, h2⟩
      rw [hd] at h2
      exact absurd h2 (by decide)
  · have hgt : secret < guess := by omega
    have hd : direction secret guess = "Too High." := by
      simp [direction, h]
    refine ⟨?_, by rw [hd]; simpa using hgt, Or.inr hd, ?_⟩
    · rw [hd]
      constructor
      · intro hh
        exact absurd hh (by decide)
      · intro hh
        exact absurd hh h
    · rintro ⟨h1, _⟩
      rw [hd] at h1
      exact absurd h1 (by decide)

/-- C7 witness: guess 10 against secret 50 is reported Too Low. -/
theorem C7_direction_dichotomy_witness :
    direction 50 10 = "Too Low." :=
  (C7_direction_dichotomy 50 10 (by decide)).1.mpr (by decide)

/-- C8 counterexample: the Python save function has no return statement, so
on a failed write it does not return the boolean false, and on a successful
write it does not return the boolean true; its value is always None. -/
theorem C8_counterexample :
    (save_highscores initialScores WriteOutcome.openFail (some "old")).1
        ≠ some false
    ∧ (save_highscores initialScores WriteOutcome.ok none).1 ≠ some true :=
  ⟨by decide, by decide⟩

/-- C8 amended: save persists the full table on success, and on a write
failure the error is swallowed inside the function and never propagated, but
the function reports no boolean; it always returns None. -/
theorem C8_save_swallows_no_boolean (t : Dict (Option Int)) (w : WriteOutcome)
    (prior : Option String) :
    (save_highscores t w prior).1 = none
    ∧ (w = WriteOutcome.ok → (save_highscores t w prior).2 = some (serialize t))
    ∧ (w = WriteOutcome.openFail → (save_highscores t w prior).2 = prior) := by
  refine ⟨?_, ?_, ?_⟩
  · cases w <;> rfl
  · rintro rfl
    rfl
  · rintro rfl
    rfl

/-- C8 amended witness: a successful save returns None and leaves the full
serialized table in the file. -/
theorem C8_save_swallows_no_boolean_witness :
    (save_highscores initialScores WriteOutcome.ok none).1 = none
    ∧ (save_highscores initialScores WriteOutcome.ok none).2
        = some (serialize initialScores) := by
  have h := C8_save_swallows_no_boolean initialScores WriteOutcome.ok none
  exact ⟨h.1, h.2.1 rfl⟩

/-- C9 counterexample: writing the default table over a missing file with a
dump failure after one character leaves the file holding a one-character
prefix of the new content, which is neither the complete new table nor the
prior content. -/
theorem C9_counterexample :
    (save_highscores initialScores (WriteOutcome.dumpFail 1) none).2
        = some ((serialize initialScores).take 1)
    ∧ (save_highscores initialScores (WriteOutcome.dumpFail 1) none).2
        ≠ some (serialize initialScores)
    ∧ (save_highscores initialScores (WriteOutcome.dumpFail 1) none).2 ≠ none :=
  ⟨rfl, by decide, by decide⟩

/-- C9 amended: save writes the table directly into the backing file with no
temporary file or rename: on success the file holds the complete new table,
when opening fails the prior content is unchanged, but a failure during the
dump can leave a partial prefix of the new content; the write is not atomic. -/
theorem C9_save_inplace_write (t : Dict (Option Int)) (w : WriteOutcome)
    (prior : Option String) :
    (save_highscores t w prior).2 = some (serialize t)
    ∨ (save_highscores t w prior).2 = prior
    ∨ ∃ k, (save_highscores t w prior).2 = some ((serialize t).take k) := by
  cases w with
  | ok => exact Or.inl rfl
  | openFail => exact Or.inr (Or.inl rfl)
  | dumpFail k => exact Or.inr (Or.inr ⟨k, rfl⟩)

/-- C10: update_highscore changes at most the entry of the given difficulty
name, every other key reading the same before and after; and when it returns
false the table is returned unchanged and no save happens, so the backing
file content is exactly the prior content. -/
theorem C10_update_frame (t : Dict (Option Int)) (name : String) (a : Int)
    (w : WriteOutcome) (prior : Option String) (k : String) :
    (k ≠ name →
      dictGet (update_highscore t name a w prior).1 k = dictGet t k)
    ∧ ((update_highscore t name a w prior).2.1 = false →
        (update_highscore t name a w prior).1 = t
          ∧ (update_highscore t name a w prior).2.2 = prior) := by
  cases hg : dictGetJ t name with
  | none =>
    constructor
    · intro hk
      simp only [update_highscore, hg]
      exact dictGet_dictSet_ne t name k (some a) hk
    · intro hfalse
      simp [update_highscore, hg] at hfalse
  | some best =>
    by_cases hab : a < best
    · constructor
      · intro hk
        simp only [update_highscore, hg, if_pos hab]
        exact dictGet_dictSet_ne t name k (some a) hk
      · intro hfalse
        simp [update_highscore, hg, hab] at hfalse
    · constructor
      · intro _
        simp [update_highscore, hg, hab]
      · intro _
        simp [update_highscore, hg, hab]

/-- C10 witness: an unsuccessful update (5 is not better than the stored 3)
leaves the other keys, the table, and the file content unchanged. -/
theorem C10_update_frame_witness :
    dictGet (update_highscore [("Easy", some 3)] "Easy" 5 WriteOutcome.ok none).1
        "Normal" = dictGet [("Easy", some 3)] "Normal"
    ∧ (update_highscore [("Easy", some 3)] "Easy" 5 WriteOutcome.ok none).1
        = [("Easy", some 3)]
    ∧ (update_highscore [("Easy", some 3)] "Easy" 5 WriteOutcome.ok none).2.2
        = none := by
  have h := C10_update_frame [("Easy", some 3)] "Easy" 5 WriteOutcome.ok none
    "Normal"
  exact ⟨h.1 (by decide), (h.2 (by decide)).1, (h.2 (by decide)).2⟩

end NumberGuessing
